import Mathlib

/-!
Verification of the Game of Life simulation engine (`src/game_of_life.py`).

The engine state is a sparse set of alive cell coordinates (integer pairs),
advisory grid dimensions, and a generation counter.  We embed the engine as a
Lean structure over `Finset (ℤ × ℤ)` and each Python method as a pure function
on that structure; loops become folds over the lists the Python code iterates.
-/

/-- A cell coordinate `(row, col)`, as in `Cell = Tuple[int, int]`. -/
abbrev Cell : Type := ℤ × ℤ

/-- The `GameOfLife` engine state: advisory `width`/`height`, the sparse set
of alive cells, and the generation counter. -/
structure GameOfLife where
  width : ℕ
  height : ℕ
  alive_cells : Finset Cell
  generation : ℕ
  deriving DecidableEq

/-- `GameOfLife.__init__`: fresh engine with an empty alive set and
generation 0 (Python defaults are `width=60, height=30`). -/
def GameOfLife.init (width : ℕ := 60) (height : ℕ := 30) : GameOfLife :=
  { width := width, height := height, alive_cells := ∅, generation := 0 }

/-- `add_cell`: insert the coordinate into the alive set. -/
def GameOfLife.add_cell (g : GameOfLife) (row col : ℤ) : GameOfLife :=
  { g with alive_cells := insert (row, col) g.alive_cells }

/-- `remove_cell`: discard the coordinate from the alive set. -/
def GameOfLife.remove_cell (g : GameOfLife) (row col : ℤ) : GameOfLife :=
  { g with alive_cells := g.alive_cells.erase (row, col) }

/-- `is_alive`: membership query against the alive set. -/
def GameOfLife.is_alive (g : GameOfLife) (row col : ℤ) : Bool :=
  decide ((row, col) ∈ g.alive_cells)

/-- The offset pairs produced by the nested loops
`for dr in [-1, 0, 1]: for dc in [-1, 0, 1]`, in iteration order. -/
def deltaPairs : List (ℤ × ℤ) :=
  [(-1 : ℤ), 0, 1].flatMap fun dr => [(-1 : ℤ), 0, 1].map fun dc => (dr, dc)

/-- `count_neighbors`: fold of the nested `dr`/`dc` loops, skipping
`(0, 0)` and incrementing the counter for each alive neighbor. -/
def GameOfLife.count_neighbors (g : GameOfLife) (row col : ℤ) : ℕ :=
  deltaPairs.foldl
    (fun count d =>
      if d.1 = 0 ∧ d.2 = 0 then count
      else if (row + d.1, col + d.2) ∈ g.alive_cells then count + 1
      else count)
    0

/-- The candidate set built inside `step`: every alive cell together with all
of its 9 offsets (the cell itself via `(0,0)` and its 8 neighbors). -/
def GameOfLife.cells_to_check (g : GameOfLife) : Finset Cell :=
  g.alive_cells.biUnion fun cell =>
    (deltaPairs.map fun d => (cell.1 + d.1, cell.2 + d.2)).toFinset

/-- The rule applied to one candidate cell inside `step`: an alive cell
survives with 2 or 3 neighbors, a dead cell is born with exactly 3. -/
def GameOfLife.step_rule (g : GameOfLife) (cell : Cell) : Bool :=
  let neighbors := g.count_neighbors cell.1 cell.2
  if g.is_alive cell.1 cell.2 then neighbors == 2 || neighbors == 3
  else neighbors == 3

/-- `step`: advance one generation.  The new alive set is the subset of the
candidate set selected by the rule; the generation counter is incremented. -/
def GameOfLife.step (g : GameOfLife) : GameOfLife :=
  { g with
    alive_cells := g.cells_to_check.filter fun cell => g.step_rule cell = true
    generation := g.generation + 1 }

/-- `clear`: empty the alive set and reset the generation counter to 0. -/
def GameOfLife.clear (g : GameOfLife) : GameOfLife :=
  { g with alive_cells := ∅, generation := 0 }

/-- `population`: the number of alive cells. -/
def GameOfLife.population (g : GameOfLife) : ℕ :=
  g.alive_cells.card

/-- The coordinates `(row, col)` visited by the nested loops
`for row in range(height): for col in range(width)`, in iteration order. -/
def gridCells (height width : ℕ) : List (ℕ × ℕ) :=
  (List.range height).flatMap fun row => (List.range width).map fun col => (row, col)

/-- `randomize`: clear, then walk the `height × width` rectangle marking each
cell alive when the random draw for it is below `density`.  The underlying
random source `random.random()` is modelled as a function `rand` from the
visited coordinate to the rational value drawn at that loop iteration. -/
def GameOfLife.randomize (g : GameOfLife) (rand : ℕ × ℕ → ℚ) (density : ℚ) :
    GameOfLife :=
  (gridCells g.height g.width).foldl
    (fun acc c => if rand c < density then acc.add_cell c.1 c.2 else acc)
    g.clear

/-- The alive-marker test `char in ('O', '#', '*')` from `add_pattern`. -/
def isAliveMarker (ch : Char) : Bool :=
  ch == 'O' || ch == '#' || ch == '*'

/-- The `(rowIndex, colIndex, char)` triples visited by the nested loops
`for r, line in enumerate(pattern): for c, char in enumerate(line)`,
in iteration order. -/
def patternCells (pattern : List String) : List (ℕ × ℕ × Char) :=
  pattern.enum.flatMap fun rl =>
    rl.2.toList.enum.map fun cch => (rl.1, cch.1, cch.2)

/-- `add_pattern`: for each pattern position holding an alive marker, add the
cell at that position shifted by the offsets. -/
def GameOfLife.add_pattern (g : GameOfLife) (pattern : List String)
    (offset_row offset_col : ℤ) : GameOfLife :=
  (patternCells pattern).foldl
    (fun acc rc =>
      if isAliveMarker rc.2.2 then
        acc.add_cell ((rc.1 : ℤ) + offset_row) ((rc.2.1 : ℤ) + offset_col)
      else acc)
    g

/-- The read-only `PATTERNS` catalog, as an association list keyed by name. -/
def PATTERNS : List (String × List String) :=
  [ ("glider", [".O.", "..O", "OOO"]),
    ("blinker", ["OOO"]),
    ("toad", [".OOO", "OOO."]),
    ("beacon", ["OO..", "OO..", "..OO", "..OO"]),
    ("pulsar",
      [ "..OOO...OOO..", ".............", "O....O.O....O", "O....O.O....O",
        "O....O.O....O", "..OOO...OOO..", ".............", "..OOO...OOO..",
        "O....O.O....O", "O....O.O....O", "O....O.O....O", ".............",
        "..OOO...OOO.." ]),
    ("glider_gun",
      [ "........................O...........",
        "......................O.O...........",
        "............OO......OO............OO",
        "...........O...O....OO............OO",
        "OO........O.....O...OO..............",
        "OO........O...O.OO....O.O...........",
        "..........O.....O.......O...........",
        "...........O...O....................",
        "............OO......................" ]),
    ("lightweight_spaceship", [".OOOO", "O...O", "....O", "O..O."]),
    ("r_pentomino", [".OO", "OO.", ".O."]),
    ("diehard", ["......O.", "OO......", ".O...OOO"]),
    ("acorn", [".O.....", "...O...", "OO..OOO"]),
    ("block", ["OO", "OO"]),
    ("beehive", [".OO.", "O..O", ".OO."]),
    ("loaf", [".OO.", "O..O", ".O.O", "..O."]) ]

/-- The glider pattern rows, `PATTERNS["glider"]`. -/
def gliderPattern : List String := [".O.", "..O", "OOO"]

/-- A fresh default engine with the glider loaded at offset `(5, 5)`. -/
def gliderGame : GameOfLife :=
  GameOfLife.init.add_pattern gliderPattern 5 5

/-- Translation of a cell set by the vector `v`. -/
def translateCells (v : Cell) (s : Finset Cell) : Finset Cell :=
  s.image fun c => (c.1 + v.1, c.2 + v.2)

example : (GameOfLife.init.add_cell 0 0).population = 1 := by decide
example : GameOfLife.init.step.generation = 1 := by decide
example : ((GameOfLife.init.add_cell 0 0).add_cell 0 1).count_neighbors 0 0 = 1 := by
  decide
example : gliderGame.alive_cells =
    ({((5:ℤ),(6:ℤ)), (6,7), (7,5), (7,6), (7,7)} : Finset Cell) := by decide
example : gliderGame.population = 5 := by decide

/-! ### Neighbor counting -/

/-- Spec-side set of the 8 neighbor offsets:
`(dr, dc)` with `dr, dc ∈ {-1,0,1}`, excluding `(0,0)`. -/
def neighborOffsets : Finset (ℤ × ℤ) :=
  (({-1, 0, 1} : Finset ℤ) ×ˢ ({-1, 0, 1} : Finset ℤ)).erase (0, 0)

lemma count_neighbors_foldl_eq (g : GameOfLife) (row col : ℤ)
    (l : List (ℤ × ℤ)) (n : ℕ) :
    l.foldl
      (fun count d =>
        if d.1 = 0 ∧ d.2 = 0 then count
        else if (row + d.1, col + d.2) ∈ g.alive_cells then count + 1
        else count)
      n
    = n + l.countP (fun d =>
        !(decide (d.1 = 0 ∧ d.2 = 0)) &&
          decide ((row + d.1, col + d.2) ∈ g.alive_cells)) := by
  induction l generalizing n with
  | nil => simp
  | cons a l ih =>
    simp only [List.foldl_cons, List.countP_cons, ih]
    by_cases h1 : a.1 = 0 ∧ a.2 = 0 <;>
      by_cases h2 : (row + a.1, col + a.2) ∈ g.alive_cells <;>
        simp [h1, h2] <;> omega

lemma count_neighbors_eq_countP (g : GameOfLife) (row col : ℤ) :
    g.count_neighbors row col
      = deltaPairs.countP (fun d =>
          !(decide (d.1 = 0 ∧ d.2 = 0)) &&
            decide ((row + d.1, col + d.2) ∈ g.alive_cells)) := by
  simpa using count_neighbors_foldl_eq g row col deltaPairs 0

lemma count_neighbors_eq_card (g : GameOfLife) (row col : ℤ) :
    g.count_neighbors row col
      = (neighborOffsets.filter
          fun d => (row + d.1, col + d.2) ∈ g.alive_cells).card := by
  have hset : neighborOffsets
      = (deltaPairs.filter fun d => !(decide (d.1 = 0 ∧ d.2 = 0))).toFinset := by
    decide
  have hnodup : (deltaPairs.filter
      fun d => !(decide (d.1 = 0 ∧ d.2 = 0))).Nodup := by decide
  rw [count_neighbors_eq_countP, hset]
  rw [show (deltaPairs.countP fun d =>
        !(decide (d.1 = 0 ∧ d.2 = 0)) &&
          decide ((row + d.1, col + d.2) ∈ g.alive_cells))
      = ((deltaPairs.filter fun d => !(decide (d.1 = 0 ∧ d.2 = 0))).countP
          fun d => decide ((row + d.1, col + d.2) ∈ g.alive_cells)) from by
    rw [List.countP_filter]
    exact List.countP_congr fun d _ => by simp [Bool.and_comm]]
  rw [List.countP_eq_length_filter, ← List.toFinset_card_of_nodup
    (hnodup.filter _), List.toFinset_filter]
  congr 1
  exact Finset.filter_congr fun d _ => by simp

lemma count_neighbors_le_eight (g : GameOfLife) (row col : ℤ) :
    g.count_neighbors row col ≤ 8 := by
  rw [count_neighbors_eq_card]
  calc (neighborOffsets.filter
          fun d => (row + d.1, col + d.2) ∈ g.alive_cells).card
      ≤ neighborOffsets.card := Finset.card_filter_le _ _
    _ = 8 := by decide

/-! ### Step characterization -/

lemma mem_deltaPairs (d : ℤ × ℤ) :
    d ∈ deltaPairs ↔ (d.1 = -1 ∨ d.1 = 0 ∨ d.1 = 1) ∧ (d.2 = -1 ∨ d.2 = 0 ∨ d.2 = 1) := by
  obtain ⟨a, b⟩ := d
  simp [deltaPairs, List.mem_flatMap, Prod.ext_iff, and_or_left, or_assoc]
  aesop

lemma neg_mem_deltaPairs {d : ℤ × ℤ} (hd : d ∈ deltaPairs) :
    (-d.1, -d.2) ∈ deltaPairs := by
  rw [mem_deltaPairs] at hd ⊢
  omega

lemma mem_cells_to_check (g : GameOfLife) (c : Cell) :
    c ∈ g.cells_to_check ↔
      ∃ a ∈ g.alive_cells, ∃ d ∈ deltaPairs, c = (a.1 + d.1, a.2 + d.2) := by
  simp only [GameOfLife.cells_to_check, Finset.mem_biUnion, List.mem_toFinset,
    List.mem_map]
  constructor
  · rintro ⟨a, ha, d, hd, rfl⟩
    exact ⟨a, ha, d, hd, rfl⟩
  · rintro ⟨a, ha, d, hd, rfl⟩
    exact ⟨a, ha, d, hd, rfl⟩

lemma alive_mem_cells_to_check (g : GameOfLife) {c : Cell}
    (hc : c ∈ g.alive_cells) : c ∈ g.cells_to_check := by
  rw [mem_cells_to_check]
  exact ⟨c, hc, (0, 0), by decide, by simp⟩

lemma mem_cells_to_check_of_count_pos (g : GameOfLife) {c : Cell}
    (hc : 0 < g.count_neighbors c.1 c.2) : c ∈ g.cells_to_check := by
  rw [count_neighbors_eq_countP] at hc
  obtain ⟨d, hd, hp⟩ := List.countP_pos.mp hc
  simp only [Bool.and_eq_true, decide_eq_true_eq, Bool.not_eq_eq_eq_not,
    Bool.not_true, decide_eq_false_iff_not] at hp
  rw [mem_cells_to_check]
  refine ⟨(c.1 + d.1, c.2 + d.2), hp.2, (-d.1, -d.2), neg_mem_deltaPairs hd, ?_⟩
  simp [Prod.ext_iff]

lemma mem_step_alive (g : GameOfLife) (c : Cell) :
    c ∈ g.step.alive_cells ↔
      (c ∈ g.alive_cells ∧
        (g.count_neighbors c.1 c.2 = 2 ∨ g.count_neighbors c.1 c.2 = 3)) ∨
      (c ∉ g.alive_cells ∧ g.count_neighbors c.1 c.2 = 3) := by
  simp only [GameOfLife.step, Finset.mem_filter]
  constructor
  · rintro ⟨-, hrule⟩
    simp only [GameOfLife.step_rule, GameOfLife.is_alive] at hrule
    by_cases hmem : (c.1, c.2) ∈ g.alive_cells
    · simp [hmem] at hrule
      exact Or.inl ⟨hmem, hrule⟩
    · simp [hmem] at hrule
      exact Or.inr ⟨hmem, hrule⟩
  · intro h
    have hcheck : c ∈ g.cells_to_check := by
      rcases h with ⟨hmem, -⟩ | ⟨-, hcount⟩
      · exact alive_mem_cells_to_check g hmem
      · exact mem_cells_to_check_of_count_pos g (by omega)
    refine ⟨hcheck, ?_⟩
    simp only [GameOfLife.step_rule, GameOfLife.is_alive]
    rcases h with ⟨hmem, hcount⟩ | ⟨hmem, hcount⟩
    · simp [hmem, hcount]
    · simp [hmem, hcount]

/-! ### Folds that only add cells -/

section FoldAdd

variable {α : Type} {P : α → Prop} [DecidablePred P] {f₁ f₂ : α → ℤ}

lemma mem_foldl_add_cell (l : List α) (s : GameOfLife) (c : Cell) :
    c ∈ (l.foldl
        (fun acc x => if P x then acc.add_cell (f₁ x) (f₂ x) else acc)
        s).alive_cells ↔
      c ∈ s.alive_cells ∨ ∃ x ∈ l, P x ∧ (f₁ x, f₂ x) = c := by
  induction l generalizing s with
  | nil => simp
  | cons a l ih =>
    simp only [List.foldl_cons]
    by_cases hp : P a
    · rw [if_pos hp, ih]
      simp only [GameOfLife.add_cell, Finset.mem_insert,
        List.exists_mem_cons_iff, hp, true_and]
      tauto
    · rw [if_neg hp, ih]
      simp only [List.exists_mem_cons_iff, hp, false_and, false_or]

lemma generation_foldl_add_cell (l : List α) (s : GameOfLife) :
    (l.foldl
        (fun acc x => if P x then acc.add_cell (f₁ x) (f₂ x) else acc)
        s).generation = s.generation := by
  induction l generalizing s with
  | nil => rfl
  | cons a l ih =>
    simp only [List.foldl_cons]
    by_cases hp : P a
    · rw [if_pos hp, ih]; rfl
    · rw [if_neg hp, ih]

lemma foldl_add_cell_of_none (l : List α) (s : GameOfLife)
    (h : ∀ x ∈ l, ¬ P x) :
    l.foldl (fun acc x => if P x then acc.add_cell (f₁ x) (f₂ x) else acc) s
      = s := by
  induction l generalizing s with
  | nil => rfl
  | cons a l ih =>
    rw [List.foldl_cons, if_neg (h a (by simp))]
    exact ih s fun x hx => h x (by simp [hx])

end FoldAdd

/-! ### Translation -/

lemma mem_translateCells (v : Cell) (s : Finset Cell) (c : Cell) :
    c ∈ translateCells v s ↔ (c.1 - v.1, c.2 - v.2) ∈ s := by
  simp only [translateCells, Finset.mem_image]
  constructor
  · rintro ⟨x, hx, rfl⟩
    simpa using hx
  · intro h
    exact ⟨(c.1 - v.1, c.2 - v.2), h, by simp⟩

lemma translate_injective (v : Cell) :
    Function.Injective fun c : Cell => (c.1 + v.1, c.2 + v.2) := by
  intro a b hab
  simp only [Prod.mk.injEq] at hab
  exact Prod.ext (by omega) (by omega)

lemma count_neighbors_translate {g₁ g₂ : GameOfLife} {v : Cell}
    (h : g₂.alive_cells = translateCells v g₁.alive_cells) (row col : ℤ) :
    g₂.count_neighbors (row + v.1) (col + v.2)
      = g₁.count_neighbors row col := by
  rw [count_neighbors_eq_countP, count_neighbors_eq_countP]
  apply List.countP_congr
  intro d _
  have e1 : row + v.1 + d.1 - v.1 = row + d.1 := by ring
  have e2 : col + v.2 + d.2 - v.2 = col + d.2 := by ring
  simp [h, mem_translateCells, e1, e2]

lemma step_alive_translate {g₁ g₂ : GameOfLife} {v : Cell}
    (h : g₂.alive_cells = translateCells v g₁.alive_cells) :
    g₂.step.alive_cells = translateCells v g₁.step.alive_cells := by
  ext c
  rw [mem_translateCells, mem_step_alive, mem_step_alive]
  have hc1 : c.1 - v.1 + v.1 = c.1 := by ring
  have hc2 : c.2 - v.2 + v.2 = c.2 := by ring
  have hcount : g₂.count_neighbors c.1 c.2
      = g₁.count_neighbors (c.1 - v.1) (c.2 - v.2) := by
    have h' := count_neighbors_translate h (c.1 - v.1) (c.2 - v.2)
    rwa [hc1, hc2] at h'
  have hmem : c ∈ g₂.alive_cells ↔
      (c.1 - v.1, c.2 - v.2) ∈ g₁.alive_cells := by
    rw [h, mem_translateCells]
  simp only [hcount, hmem]

lemma step_iterate_translate {g₁ g₂ : GameOfLife} {v : Cell}
    (h : g₂.alive_cells = translateCells v g₁.alive_cells) (n : ℕ) :
    (GameOfLife.step^[n] g₂).alive_cells
      = translateCells v (GameOfLife.step^[n] g₁).alive_cells := by
  induction n with
  | zero => simpa using h
  | succ n ih =>
    rw [Function.iterate_succ_apply', Function.iterate_succ_apply']
    exact step_alive_translate ih

/-! ### Glider facts -/

lemma glider_step4_alive :
    (GameOfLife.step^[4] gliderGame).alive_cells
      = translateCells (1, 1) gliderGame.alive_cells := by decide

lemma glider_pop_periodic (m : ℕ) :
    (GameOfLife.step^[m + 4] gliderGame).population
      = (GameOfLife.step^[m] gliderGame).population := by
  have h := step_iterate_translate glider_step4_alive m
  rw [← Function.iterate_add_apply] at h
  rw [GameOfLife.population, GameOfLife.population, h, translateCells]
  exact Finset.card_image_of_injective _ (translate_injective (1, 1))

lemma glider_population_all (n : ℕ) :
    (GameOfLife.step^[n] gliderGame).population = 5 := by
  induction n using Nat.strong_induction_on with
  | _ n ih =>
    match n with
    | 0 => decide
    | 1 => decide
    | 2 => decide
    | 3 => decide
    | (m + 4) =>
      rw [glider_pop_periodic m]
      exact ih m (by omega)

/-! ### Spec-side rule over the infinite grid -/

/-- Spec-side neighbor count of a cell: how many of the 8 offset cells are in
the alive set `s`. -/
def specNeighborCount (s : Finset Cell) (c : Cell) : ℕ :=
  (neighborOffsets.filter fun d => (c.1 + d.1, c.2 + d.2) ∈ s).card

/-- Spec-side next-generation rule, applied to an arbitrary cell of the
infinite grid: an alive cell with neighbor count 2 or 3 survives, a dead cell
with neighbor count exactly 3 is born, every other cell is dead. -/
def specNextAlive (s : Finset Cell) (c : Cell) : Prop :=
  (c ∈ s ∧ (specNeighborCount s c = 2 ∨ specNeighborCount s c = 3)) ∨
  (c ∉ s ∧ specNeighborCount s c = 3)

/-! ### Claim theorems -/

/-- C1: for every engine state and every cell in the candidate set considered
by `step`, the cell is alive in the next generation iff it was alive with
neighbor count 2 or 3, or dead with neighbor count exactly 3; every other
candidate cell is dead after `step`. -/
theorem step_candidate_rule (g : GameOfLife) (c : Cell)
    (hc : c ∈ g.cells_to_check) :
    c ∈ g.step.alive_cells ↔
      (c ∈ g.alive_cells ∧
        (g.count_neighbors c.1 c.2 = 2 ∨ g.count_neighbors c.1 c.2 = 3)) ∨
      (c ∉ g.alive_cells ∧ g.count_neighbors c.1 c.2 = 3) :=
  mem_step_alive g c

theorem step_candidate_rule_witness :
    (5, 6) ∈ gliderGame.cells_to_check ∧
    ((5, 6) ∈ gliderGame.step.alive_cells ↔
      ((5, 6) ∈ gliderGame.alive_cells ∧
        (gliderGame.count_neighbors 5 6 = 2 ∨
          gliderGame.count_neighbors 5 6 = 3)) ∨
      ((5, 6) ∉ gliderGame.alive_cells ∧
        gliderGame.count_neighbors 5 6 = 3)) :=
  ⟨by decide, step_candidate_rule gliderGame (5, 6) (by decide)⟩

/-- C2: restricting `step` to the candidate set is equivalent to applying the
birth/survival rule to every cell of the infinite grid; any cell outside the
candidate set is dead both before and after `step`. -/
theorem step_refines_infinite_grid (g : GameOfLife) (c : Cell) :
    (c ∈ g.step.alive_cells ↔ specNextAlive g.alive_cells c) ∧
    (c ∉ g.cells_to_check → c ∉ g.alive_cells ∧ c ∉ g.step.alive_cells) := by
  constructor
  · rw [mem_step_alive]
    simp only [specNextAlive, specNeighborCount, ← count_neighbors_eq_card]
  · intro hnc
    have h1 : c ∉ g.alive_cells := fun h => hnc (alive_mem_cells_to_check g h)
    have h2 : g.count_neighbors c.1 c.2 = 0 := by
      by_contra h
      exact hnc (mem_cells_to_check_of_count_pos g (Nat.pos_of_ne_zero h))
    rw [mem_step_alive]
    simp [h1, h2]

theorem step_refines_infinite_grid_witness :
    (3, 3) ∉ gliderGame.alive_cells ∧ (3, 3) ∉ gliderGame.step.alive_cells :=
  (step_refines_infinite_grid gliderGame (3, 3)).2 (by decide)

/-- C3: `step` increments the generation counter by exactly 1, and `step` on
an empty alive set leaves the alive set empty. -/
theorem step_generation_succ (g : GameOfLife) :
    g.step.generation = g.generation + 1 ∧
    (g.alive_cells = ∅ → g.step.alive_cells = ∅) := by
  refine ⟨rfl, fun h => ?_⟩
  simp [GameOfLife.step, GameOfLife.cells_to_check, h]

theorem step_generation_succ_witness :
    GameOfLife.init.step.generation = GameOfLife.init.generation + 1 ∧
    GameOfLife.init.step.alive_cells = ∅ :=
  ⟨(step_generation_succ GameOfLife.init).1,
   (step_generation_succ GameOfLife.init).2 rfl⟩

/-- C4: after `clear`, the population is 0 and the generation counter is 0,
regardless of prior state. -/
theorem clear_resets (g : GameOfLife) :
    g.clear.population = 0 ∧ g.clear.generation = 0 :=
  ⟨rfl, rfl⟩

/-- C5: with the glider loaded at offset `(5, 5)` into an empty engine, the
population is 5 after any number of `step` calls, and after exactly 4 calls
the alive set is the generation-0 alive set translated by `(+1, +1)`. -/
theorem glider_invariants :
    (∀ n : ℕ, (GameOfLife.step^[n] gliderGame).population = 5) ∧
    (GameOfLife.step^[4] gliderGame).alive_cells
      = translateCells (1, 1) gliderGame.alive_cells :=
  ⟨glider_population_all, glider_step4_alive⟩

/-- C6: `add_pattern` adds the cell `(r + offset_row, c + offset_col)` exactly
for each pattern position `(r, c)` whose character is a recognized alive
marker, and removes no cell: every previously alive cell stays alive. -/
theorem add_pattern_additive (g : GameOfLife) (pattern : List String)
    (offset_row offset_col : ℤ) (cell : Cell) :
    cell ∈ (g.add_pattern pattern offset_row offset_col).alive_cells ↔
      cell ∈ g.alive_cells ∨
      ∃ r c : ℕ, ∃ line : String, ∃ ch : Char,
        pattern.get? r = some line ∧ line.toList.get? c = some ch ∧
        isAliveMarker ch = true ∧
        cell = ((r : ℤ) + offset_row, (c : ℤ) + offset_col) := by
  have h := @mem_foldl_add_cell (ℕ × ℕ × Char)
    (fun rc => isAliveMarker rc.2.2 = true) (fun _ => inferInstance)
    (fun rc => (rc.1 : ℤ) + offset_row) (fun rc => (rc.2.1 : ℤ) + offset_col)
    (patternCells pattern) g cell
  refine Iff.trans h (or_congr_right ?_)
  constructor
  · rintro ⟨x, hx, hmark, hcell⟩
    simp only [patternCells, List.mem_flatMap, List.mem_map] at hx
    obtain ⟨rl, hrl, cch, hcch, rfl⟩ := hx
    exact ⟨rl.1, cch.1, rl.2, cch.2, List.mem_enum_iff_get?.mp hrl,
      List.mem_enum_iff_get?.mp hcch, hmark, hcell.symm⟩
  · rintro ⟨r, c, line, ch, hline, hch, hmark, rfl⟩
    refine ⟨(r, c, ch), ?_, hmark, rfl⟩
    simp only [patternCells, List.mem_flatMap, List.mem_map]
    exact ⟨(r, line), List.mem_enum_iff_get?.mpr hline,
      ⟨(c, ch), List.mem_enum_iff_get?.mpr hch, rfl⟩⟩

/-- C7: `count_neighbors` is the number of the 8 offset cells in the alive
set, the result is at most 8, and it does not depend on the advisory
width/height (cells outside the advisory bounds are counted). -/
theorem count_neighbors_correct (g : GameOfLife) (row col : ℤ) :
    g.count_neighbors row col
        = (neighborOffsets.filter
            fun d => (row + d.1, col + d.2) ∈ g.alive_cells).card ∧
      g.count_neighbors row col ≤ 8 ∧
      ∀ w h : ℕ,
        (GameOfLife.mk w h g.alive_cells g.generation).count_neighbors row col
          = g.count_neighbors row col :=
  ⟨count_neighbors_eq_card g row col, count_neighbors_le_eight g row col,
   fun _ _ => rfl⟩

/-- C8: `add_cell` is idempotent (adding an already-alive cell changes
nothing), and `remove_cell` of an absent coordinate leaves the state and the
population unchanged. -/
theorem add_remove_cell_props (g : GameOfLife) (row col : ℤ) :
    (g.add_cell row col).add_cell row col = g.add_cell row col ∧
    ((row, col) ∈ g.alive_cells → g.add_cell row col = g) ∧
    ((row, col) ∉ g.alive_cells →
      g.remove_cell row col = g ∧
      (g.remove_cell row col).population = g.population) := by
  obtain ⟨w, h, s, gen⟩ := g
  refine ⟨?_, fun hmem => ?_, fun hmem => ⟨?_, ?_⟩⟩
  · simp [GameOfLife.add_cell, Finset.insert_idem]
  · simp [GameOfLife.add_cell, Finset.insert_eq_self.mpr hmem]
  · simp [GameOfLife.remove_cell, Finset.erase_eq_self.mpr hmem]
  · simp [GameOfLife.remove_cell, GameOfLife.population,
      Finset.erase_eq_self.mpr hmem]

theorem add_remove_cell_props_witness :
    (GameOfLife.init.add_cell 0 0).add_cell 0 0 = GameOfLife.init.add_cell 0 0 ∧
    (GameOfLife.init.add_cell 0 0).remove_cell 1 1
        = GameOfLife.init.add_cell 0 0 ∧
    ((GameOfLife.init.add_cell 0 0).remove_cell 1 1).population
        = (GameOfLife.init.add_cell 0 0).population :=
  ⟨(add_remove_cell_props (GameOfLife.init.add_cell 0 0) 0 0).2.1 (by decide),
   ((add_remove_cell_props (GameOfLife.init.add_cell 0 0) 1 1).2.2
      (by decide)).1,
   ((add_remove_cell_props (GameOfLife.init.add_cell 0 0) 1 1).2.2
      (by decide)).2⟩

lemma mem_gridCells (h w : ℕ) (x : ℕ × ℕ) :
    x ∈ gridCells h w ↔ x.1 < h ∧ x.2 < w := by
  obtain ⟨a, b⟩ := x
  simp only [gridCells, List.mem_flatMap, List.mem_map, List.mem_range,
    Prod.mk.injEq]
  constructor
  · rintro ⟨row, hrow, col, hcol, rfl, rfl⟩
    exact ⟨hrow, hcol⟩
  · rintro ⟨ha, hb⟩
    exact ⟨a, ha, b, hb, rfl, rfl⟩

lemma natCastPair_injective :
    Function.Injective fun x : ℕ × ℕ => ((x.1 : ℤ), (x.2 : ℤ)) := by
  intro a b hab
  simp only [Prod.mk.injEq, Nat.cast_inj] at hab
  exact Prod.ext hab.1 hab.2

/-- C9: assuming the random source only yields values in `[0, 1)`,
`randomize 0` yields population 0 and `randomize 1` yields population exactly
`width * height`, whatever the prior state. -/
theorem randomize_extreme_density (g : GameOfLife) (rand : ℕ × ℕ → ℚ)
    (hr : ∀ c, 0 ≤ rand c ∧ rand c < 1) :
    (g.randomize rand 0).population = 0 ∧
    (g.randomize rand 1).population = g.width * g.height := by
  constructor
  · rw [GameOfLife.randomize,
      foldl_add_cell_of_none (gridCells g.height g.width) g.clear
        fun x _ => not_lt.mpr (hr x).1]
    rfl
  · have hmem := @mem_foldl_add_cell (ℕ × ℕ) (fun c => rand c < 1)
      (fun _ => inferInstance) (fun c => (c.1 : ℤ)) (fun c => (c.2 : ℤ))
      (gridCells g.height g.width) g.clear
    have hset : (g.randomize rand 1).alive_cells
        = (Finset.range g.height ×ˢ Finset.range g.width).image
            fun x => ((x.1 : ℤ), (x.2 : ℤ)) := by
      ext cell
      rw [GameOfLife.randomize, hmem cell]
      simp only [GameOfLife.clear, Finset.not_mem_empty, false_or,
        Finset.mem_image, Finset.mem_product, Finset.mem_range,
        mem_gridCells]
      constructor
      · rintro ⟨x, ⟨hx1, hx2⟩, -, rfl⟩
        exact ⟨x, ⟨hx1, hx2⟩, rfl⟩
      · rintro ⟨x, ⟨hx1, hx2⟩, rfl⟩
        exact ⟨x, ⟨hx1, hx2⟩, (hr x).2, rfl⟩
    rw [GameOfLife.population, hset,
      Finset.card_image_of_injective _ natCastPair_injective,
      Finset.card_product, Finset.card_range, Finset.card_range,
      Nat.mul_comm]

theorem randomize_extreme_density_witness :
    ((GameOfLife.mk 2 3 {(0, 0)} 7).randomize (fun _ => 1/2) 0).population = 0 ∧
    ((GameOfLife.mk 2 3 {(0, 0)} 7).randomize (fun _ => 1/2) 1).population
      = 2 * 3 :=
  randomize_extreme_density (GameOfLife.mk 2 3 {(0, 0)} 7) (fun _ => 1/2)
    fun _ => by norm_num

/-- C10: `randomize` resets the generation counter to 0 for every prior state
and every density, because it begins by calling `clear`. -/
theorem randomize_resets_generation (g : GameOfLife) (rand : ℕ × ℕ → ℚ)
    (density : ℚ) :
    (g.randomize rand density).generation = 0 := by
  rw [GameOfLife.randomize]
  exact (generation_foldl_add_cell (gridCells g.height g.width) g.clear).trans
    rfl
